import Mathlib

/-!
Shallow embedding of the Validador-COMTRADE extraction-and-matching core:
the COMTRADE configuration/data parser (`src/core/comtrade_parser.py`),
the signal validator and its name-normalization helpers
(`src/core/validator.py`), the alias store (`src/core/alias_database.py`),
the function classifier and the disturbance-report channel extraction
(`src/core/xrio_parser.py`).

Python strings are modelled as Lean `String`/`List Char`; Python `int` as
`Int`; Python `float` values as `Rat` (only finite decimal literals are
relevant to the properties proved here); Python dicts as insertion-ordered
association lists.  Fallible operations return `Option`/`Except`.
-/

namespace ValidadorComtrade

/-! ### Python string primitives -/

/-- The characters matched by Python's `str.strip()` (ASCII whitespace). -/
def isPySpace (c : Char) : Bool :=
  c = ' ' || c = '\t' || c = '\n' || c = '\r' || c = '\x0b' || c = '\x0c'

/-- `str.strip()` on a character list: drop leading and trailing whitespace. -/
def pyStripChars (l : List Char) : List Char :=
  ((l.dropWhile isPySpace).reverse.dropWhile isPySpace).reverse

/-- `str.strip()`. -/
def pyStrip (s : String) : String := ⟨pyStripChars s.data⟩

/-- `str.upper()` (ASCII; the names handled by the tool are ASCII). -/
def pyUpper (s : String) : String := ⟨s.data.map Char.toUpper⟩

/-- `str.lower()` (ASCII). -/
def pyLower (s : String) : String := ⟨s.data.map Char.toLower⟩

/-- Split a character list at every occurrence of `sep` (Python `str.split(sep)`
for a one-character separator). -/
def splitChars (sep : Char) : List Char → List (List Char)
  | [] => [[]]
  | c :: rest =>
    let r := splitChars sep rest
    if c = sep then [] :: r
    else
      match r with
      | h :: t => (c :: h) :: t
      | [] => [[c]]

/-- Python `str.split(sep)` for a one-character separator. -/
def pySplitOn (s : String) (sep : Char) : List String :=
  (splitChars sep s.data).map (fun l => ⟨l⟩)

/-- Digits of a numeral to a natural number. -/
def digitsToNat (l : List Char) : Nat :=
  l.foldl (fun a c => a * 10 + (c.toNat - 48)) 0

/-- Python `int(s)`: strip whitespace, optional sign, then decimal digits;
anything else raises `ValueError`, modelled as `none`. -/
def pyInt? (s : String) : Option Int :=
  match pyStripChars s.data with
  | [] => none
  | '+' :: rest =>
    if rest ≠ [] ∧ rest.all Char.isDigit then some (digitsToNat rest) else none
  | '-' :: rest =>
    if rest ≠ [] ∧ rest.all Char.isDigit then some (-(digitsToNat rest : Int)) else none
  | l =>
    if l.all Char.isDigit then some (digitsToNat l) else none

/-- Mantissa of a decimal literal: `digits`, `digits.digits`, `.digits` or
`digits.`. -/
def parseMantissa (l : List Char) : Option Rat :=
  if l.contains '.' then
    let ip := l.takeWhile (fun c => c ≠ '.')
    let fp := (l.dropWhile (fun c => c ≠ '.')).tail
    if fp.contains '.' then none
    else if ip ++ fp = [] then none
    else if (ip ++ fp).all Char.isDigit then
      some ((digitsToNat ip : Rat) + (digitsToNat fp : Rat) / ((10 : Rat) ^ fp.length))
    else none
  else if l ≠ [] ∧ l.all Char.isDigit then some ((digitsToNat l : Nat) : Rat)
  else none

/-- Exponent part of a decimal literal (after `e`/`E`): optional sign, digits. -/
def parseExp (l : List Char) : Option Int :=
  match l with
  | [] => none
  | '+' :: rest =>
    if rest ≠ [] ∧ rest.all Char.isDigit then some (digitsToNat rest) else none
  | '-' :: rest =>
    if rest ≠ [] ∧ rest.all Char.isDigit then some (-(digitsToNat rest : Int)) else none
  | _ =>
    if l.all Char.isDigit then some (digitsToNat l) else none

/-- Unsigned decimal literal with optional exponent. -/
def pyFloatCore (l : List Char) : Option Rat :=
  let mant := l.takeWhile (fun c => c ≠ 'e' ∧ c ≠ 'E')
  let rest := l.drop mant.length
  match rest with
  | [] => parseMantissa mant
  | _ :: ex =>
    match parseMantissa mant, parseExp ex with
    | some m, some e => some (m * (10 : Rat) ^ e)
    | _, _ => none

/-- Python `float(s)` on finite decimal literals, yielding a rational;
strings `float()` rejects (and the non-finite forms, which the repository's
inputs never use) are modelled as `none`, which every caller turns into the
documented default. -/
def pyFloat? (s : String) : Option Rat :=
  match pyStripChars s.data with
  | '+' :: rest => pyFloatCore rest
  | '-' :: rest => (pyFloatCore rest).map Neg.neg
  | l => pyFloatCore l

/-- Python's substring test `needle in hay`. -/
def infixB (needle : List Char) : List Char → Bool
  | [] => needle.isEmpty
  | c :: t => needle.isPrefixOf (c :: t) || infixB needle t

/-! ### Name normalization and matching helpers (`SignalValidator`) -/

/-- The characters of the regex class `[_\-\s\.]` in `_normalize_name`. -/
def isSepChar (c : Char) : Bool :=
  c = '_' || c = '-' || c = '.' || isPySpace c

/-- Manufacturer prefixes stripped by `_normalize_name`. -/
def MANUFACTURER_PREFIXES : List String :=
  ["REL_", "DIG_", "ANA_", "BIN_", "CH_", "SIG_"]

/-- `prefix.replace('_', '')`. -/
def prefixLetters (p : String) : List Char := p.data.filter (fun c => c ≠ '_')

/-- One iteration of the prefix-stripping loop in `_normalize_name`:
`if n.startswith(prefix.replace('_', '')): n = n[len(prefix) - 1:]`. -/
def stripPrefixStep (n : List Char) (p : String) : List Char :=
  if (prefixLetters p).isPrefixOf n then n.drop (p.length - 1) else n

/-- `SignalValidator._normalize_name` on a character list: upper-case,
strip, remove separator characters, then strip manufacturer prefixes. -/
def normalizeChars (name : List Char) : List Char :=
  MANUFACTURER_PREFIXES.foldl stripPrefixStep
    ((pyStripChars (name.map Char.toUpper)).filter (fun c => !isSepChar c))

/-- `SignalValidator._normalize_name`. -/
def normalize_name (s : String) : String := ⟨normalizeChars s.data⟩

/-- The last `n` characters of a list (Python `s[-n:]`). -/
def lastChars (n : Nat) (l : List Char) : List Char := l.drop (l.length - n)

/-- `SignalValidator._extract_phase`. -/
def extract_phase (name : String) : String :=
  let d := (pyUpper name).data
  if d.getLast? = some 'A' || infixB "PHA".data d || infixB "_A".data d then "A"
  else if d.getLast? = some 'B' || infixB "PHB".data d || infixB "_B".data d then "B"
  else if d.getLast? = some 'C' || infixB "PHC".data d || infixB "_C".data d then "C"
  else if (lastChars 2 d).contains 'N' || infixB "NEUT".data d then "N"
  else ""

/-- `SignalValidator._extract_signal_type_indicator`. -/
def extract_signal_type_indicator (name : String) : String :=
  let d := (pyUpper name).data
  if ["VOLT", "V_", "_V", "VA", "VB", "VC", "UA", "UB", "UC", "TENSION"].any
      (fun k => infixB k.data d) then "V"
  else if ["CURR", "I_", "_I", "IA", "IB", "IC", "AMP", "CORR"].any
      (fun k => infixB k.data d) then "I"
  else ""

/-- `SignalValidator._fuzzy_match`. -/
def fuzzy_match (name1 name2 : String) : Bool :=
  let n1 := normalize_name name1
  let n2 := normalize_name name2
  if n1 = n2 then true
  else if infixB n1.data n2.data || infixB n2.data n1.data then true
  else
    let phase1 := extract_phase n1
    let phase2 := extract_phase n2
    let type1 := extract_signal_type_indicator n1
    let type2 := extract_signal_type_indicator n2
    if phase1 ≠ "" && phase2 ≠ "" && type1 ≠ "" && type2 ≠ "" then
      phase1 = phase2 && type1 = type2
    else false

/-! ### Standard-name catalog (`ComtradeStandardTemplate`) -/

/-- `name` fields of `ComtradeStandardTemplate.STANDARD_ANALOG_SIGNALS`
(only the `name` field of each record participates in validation). -/
def STANDARD_ANALOG_SIGNAL_NAMES : List String :=
  ["IA", "IB", "IC", "IN", "I0", "I1", "I2",
   "VA", "VB", "VC", "VN", "V0", "V1", "V2", "P", "Q", "F"]

/-- `name` fields of `ComtradeStandardTemplate.STANDARD_DIGITAL_SIGNALS`. -/
def STANDARD_DIGITAL_SIGNAL_NAMES : List String :=
  ["TRIP", "TRIP_A", "TRIP_B", "TRIP_C", "CLOSE", "RECLOSE",
   "21_PICKUP", "21_Z1", "21_Z2", "21_Z3", "50_PICKUP", "51_PICKUP",
   "67_FWD", "67_REV", "59_PICKUP", "27_PICKUP", "81_PICKUP",
   "87_OPERATE", "CB_OPEN", "CB_CLOSE", "ALARM", "COMM_FAIL"]

/-- `ComtradeStandardTemplate.get_all_standard_signal_names`. -/
def get_all_standard_signal_names : List String :=
  STANDARD_ANALOG_SIGNAL_NAMES ++ STANDARD_DIGITAL_SIGNAL_NAMES

/-! ### Function classifier (`xrio_parser.classify_signal_function`) -/

/-- `models.signal_models.ProtectionFunction`. -/
inductive ProtectionFunction where
  | distance | overcurrent | differential | overvoltage | undervoltage
  | frequency | directional | breaker_failure | reclosing | synchrocheck
  | overload | general | metering | communication | unknown
deriving DecidableEq, Repr

/-- The `.value` string of each `ProtectionFunction` member. -/
def ProtectionFunction.value : ProtectionFunction → String
  | .distance => "Protección de distancia"
  | .overcurrent => "Sobrecorriente"
  | .differential => "Diferencial"
  | .overvoltage => "Sobretensión"
  | .undervoltage => "Subtensión"
  | .frequency => "Frecuencia"
  | .directional => "Direccional"
  | .breaker_failure => "Falla de interruptor"
  | .reclosing => "Recierre"
  | .synchrocheck => "Verificación de sincronismo"
  | .overload => "Sobrecarga"
  | .general => "General"
  | .metering => "Medición"
  | .communication => "Comunicación"
  | .unknown => "Desconocido"

/-- `xrio_parser.FUNCTION_KEYWORDS`, in dict insertion order. -/
def FUNCTION_KEYWORDS : List (ProtectionFunction × List String) :=
  [(.distance, ["Z", "DIST", "21", "ZONE", "MHO", "QUAD", "REACH", "IMPEDANCE"]),
   (.overcurrent, ["OC", "50", "51", "OVERCURRENT", "I>", "I>>", "IINST", "TOC",
                   "DTOC", "IDMT"]),
   (.differential, ["DIFF", "87", "RESTRAIN", "OPERATE", "BIAS"]),
   (.overvoltage, ["OV", "59", "V>", "V>>", "OVERVOLT"]),
   (.undervoltage, ["UV", "27", "V<", "V<<", "UNDERVOLT"]),
   (.frequency, ["FREQ", "81", "F<", "F>", "ROCOF", "DF/DT"]),
   (.directional, ["DIR", "67", "DIRECTIONAL", "ANGLE", "TORQUE"]),
   (.breaker_failure, ["BF", "50BF", "BREAKER", "CBF", "CB FAIL"]),
   (.reclosing, ["RECL", "79", "AUTORECL", "AR", "RECLOSE"]),
   (.synchrocheck, ["SYNC", "25", "SYNCHRO", "CHECK SYNC"]),
   (.metering, ["METER", "MEAS", "MEASURE", "MW", "MVAR", "PF", "KWH"]),
   (.communication, ["COMM", "GOOSE", "SV", "IEC61850", "DNP", "MODBUS", "TRIP SEND"])]

/-- `str.replace(old, new)` for one-character arguments. -/
def pyReplaceChar (s : String) (old new : Char) : String :=
  ⟨s.data.map (fun c => if c = old then new else c)⟩

/-- `xrio_parser.classify_signal_function`. -/
def classify_signal_function (name : String) : ProtectionFunction :=
  let upper := pyReplaceChar (pyReplaceChar (pyUpper name) '_' ' ') '-' ' '
  match FUNCTION_KEYWORDS.find? (fun fk => fk.2.any (fun kw => infixB kw.data upper.data)) with
  | some fk => fk.1
  | none =>
    if ["IA", "IB", "IC", "IN", "I0", "I1", "I2"].any
        (fun c => infixB c.data upper.data) then .overcurrent
    else if ["VA", "VB", "VC", "VN", "V0", "V1", "V2", "UA", "UB", "UC"].any
        (fun c => infixB c.data upper.data) then .overvoltage
    else .unknown

/-! ### Alias store (`AliasDatabase`) -/

/-- `models.signal_models.AliasEntry`. -/
structure AliasEntry where
  relay_name : String := ""
  standard_name : String := ""
  relay_model : String := ""
  signal_type : String := "analog"
  function : String := ""
  auto_detected : Bool := false
  validated : Bool := false
deriving DecidableEq, Repr

/-- `AliasEntry.key`: `f"{relay_model}::{relay_name}"`. -/
def AliasEntry.key (e : AliasEntry) : String :=
  e.relay_model ++ "::" ++ e.relay_name

/-- The in-memory store `AliasDatabase._entries`: a Python dict modelled as an
insertion-ordered association list with pairwise-distinct keys. -/
abbrev AliasDb : Type := List (String × AliasEntry)

/-- `AliasDatabase.add`: insert or overwrite by key (an overwrite keeps the
entry's dict position); returns the new store and whether the key was new. -/
def dbAdd (e : AliasEntry) (db : AliasDb) : AliasDb × Bool :=
  let k := e.key
  if db.any (fun p => p.1 = k) then
    (db.map (fun p => if p.1 = k then (k, e) else p), false)
  else (db ++ [(k, e)], true)

/-- `AliasDatabase.get`: exact (case-sensitive) key lookup. -/
def dbGet (db : AliasDb) (relay_model relay_name : String) : Option AliasEntry :=
  (db.find?
    (fun p => p.1 = relay_model ++ "::" ++ relay_name)).map (fun p => p.2)

/-- `AliasDatabase.find_by_relay_name`: case-insensitive scan over all models,
in store (insertion) order. -/
def find_by_relay_name (db : AliasDb) (relay_name : String) : List AliasEntry :=
  (db.map (fun p => p.2)).filter
    (fun e => pyLower e.relay_name = pyLower relay_name)

/-- `AliasDatabase.find_standard_for`: exact key first, then the first
case-insensitive name match under any model. -/
def find_standard_for (db : AliasDb) (relay_model relay_name : String) : Option String :=
  match dbGet db relay_model relay_name with
  | some e => some e.standard_name
  | none =>
    match (find_by_relay_name db relay_name).head? with
    | some e => some e.standard_name
    | none => none

/-! ### Signal validator (`SignalValidator`) -/

/-- `models.signal_models.ValidationResult`. -/
structure ValidationResult where
  xrio_name : String := ""
  standard_name : String := ""
  match_type : String := ""
  confidence : Rat := 0
  message : String := ""
deriving DecidableEq, Repr

/-- `models.signal_models.SignalType`. -/
inductive SignalType where
  | analog
  | binary
deriving DecidableEq, Repr

/-- `models.signal_models.ComtradeChannel`. -/
structure ComtradeChannel where
  index : Int := 0
  name : String := ""
  phase : String := ""
  circuit_component : String := ""
  unit : String := ""
  multiplier : Rat := 1
  offset : Rat := 0
  skew : Rat := 0
  min_val : Rat := -99999
  max_val : Rat := 99999
  primary : Rat := 1
  secondary : Rat := 1
  ps_type : String := "P"
  signal_type : SignalType := .analog
  normal_state : Int := 0
deriving DecidableEq, Repr

/-- `models.signal_models.ComtradeConfig` (the `file_path` bookkeeping field
is not part of the parsed content and is omitted). -/
structure ComtradeConfig where
  station_name : String := ""
  rec_dev_id : String := ""
  rev_year : Int := 1999
  num_analog : Int := 0
  num_digital : Int := 0
  analog_channels : List ComtradeChannel := []
  digital_channels : List ComtradeChannel := []
  line_freq : Rat := 60
  sampling_rates : List (Rat × Int) := []
  start_timestamp : String := ""
  trigger_timestamp : String := ""
  data_format : String := "ASCII"
  time_multiplier : Rat := 1
deriving DecidableEq, Repr

/-- The entry built by `SignalValidator._auto_add_alias` (note
`validated=not auto`). -/
def autoAliasEntry (relay_name standard_name relay_model signal_type : String)
    (auto : Bool) : AliasEntry :=
  { relay_name := relay_name
    standard_name := standard_name
    relay_model := relay_model
    signal_type := signal_type
    function := (classify_signal_function relay_name).value
    auto_detected := auto
    validated := !auto }

/-- `SignalValidator._heuristic_match`. -/
def heuristic_match (xrio_name signal_type : String) : Option String :=
  let n := normalize_name xrio_name
  let phase := extract_phase n
  let sig_ind := extract_signal_type_indicator n
  let candidates := if signal_type = "analog" then STANDARD_ANALOG_SIGNAL_NAMES
                    else STANDARD_DIGITAL_SIGNAL_NAMES
  candidates.find? (fun std =>
    let std_norm := normalize_name std
    (infixB std_norm.data n.data || infixB n.data std_norm.data)
    || (signal_type = "analog" && phase ≠ "" && sig_ind ≠ ""
        && infixB sig_ind.data (pyUpper std).data
        && infixB phase.data (pyUpper std).data))

/-- `SignalValidator._validate_signal`, with the mutable alias store passed
explicitly: returns the `ValidationResult` together with the store left
behind by the call (tiers 1 and 3 write an auto-detected alias through
`_auto_add_alias`). -/
def validate_signal (db : AliasDb) (comtrade_config : Option ComtradeConfig)
    (xrio_name relay_model signal_type : String) : ValidationResult × AliasDb :=
  -- 1. exact, case-insensitive match against the standard catalog
  if (get_all_standard_signal_names.map pyUpper).contains (pyUpper xrio_name) then
    ({ xrio_name := xrio_name
       standard_name := xrio_name
       match_type := "exact"
       confidence := 1
       message := "Coincidencia exacta con estándar" },
     (dbAdd (autoAliasEntry xrio_name xrio_name relay_model signal_type true) db).1)
  else
    -- 2. alias-store lookup
    match find_standard_for db relay_model xrio_name with
    | some alias_name =>
      ({ xrio_name := xrio_name
         standard_name := alias_name
         match_type := "alias"
         confidence := 0.95
         message := "Mapeado por alias: " ++ xrio_name ++ " → " ++ alias_name },
       db)
    | none =>
      -- 3. fuzzy comparison against a loaded COMTRADE config
      let tier3 : Option (ValidationResult × AliasDb) :=
        match comtrade_config with
        | none => none
        | some c =>
          let channels := if signal_type = "analog" then c.analog_channels
                          else c.digital_channels
          match channels.find? (fun ch => fuzzy_match xrio_name ch.name) with
          | some ch =>
            some ({ xrio_name := xrio_name
                    standard_name := ch.name
                    match_type := "fuzzy"
                    confidence := 0.7
                    message := "Coincidencia aproximada con COMTRADE: " ++ ch.name },
                  (dbAdd (autoAliasEntry xrio_name ch.name relay_model signal_type true) db).1)
          | none => none
      match tier3 with
      | some out => out
      | none =>
        -- 4. heuristic match against the catalog
        match heuristic_match xrio_name signal_type with
        | some best_match =>
          ({ xrio_name := xrio_name
             standard_name := best_match
             match_type := "fuzzy"
             confidence := 0.5
             message := "Posible coincidencia heurística: " ++ best_match },
           db)
        | none =>
          -- 5. unresolved
          ({ xrio_name := xrio_name
             match_type := "new"
             confidence := 0
             message := "Sin coincidencia. Requiere mapeo manual." },
           db)

/-! ### COMTRADE configuration parser (`ComtradeParser.parse_cfg`) -/

/-- The error raised by `parse_cfg` on a structurally too-short file
(`ValueError("Archivo .cfg demasiado corto")`). -/
inductive CfgError where
  | tooShort
deriving DecidableEq, Repr

/-- The line list `parse_cfg` works on:
`lines = [line.strip() for line in f.readlines()]`.  `readlines` yields one
element per newline-terminated chunk plus a final unterminated chunk, and
none at all for empty content. -/
def pyReadStrippedLines (text : String) : List String :=
  if text = "" then []
  else
    let parts := pySplitOn text '\n'
    let parts := if parts.getLast? = some "" then parts.dropLast else parts
    parts.map pyStrip

/-- `ComtradeParser._split_cfg_line`. -/
def split_cfg_line (line : String) : List String :=
  (pySplitOn line ',').map pyStrip

/-- The channel-count scan over the tail fields of line 2 of the `.cfg`
(tokens ending in `A`/`D`, case-insensitively; a failed `int()` leaves the
previous value). -/
def scanChannelCounts (ps : List String) : Int × Int :=
  ps.foldl
    (fun ad p =>
      let p := pyStrip p
      let u := (pyUpper p).data
      if u.getLast? = some 'A' then
        match pyInt? ⟨p.data.dropLast⟩ with
        | some v => (v, ad.2)
        | none => ad
      else if u.getLast? = some 'D' then
        match pyInt? ⟨p.data.dropLast⟩ with
        | some v => (ad.1, v)
        | none => ad
      else ad)
    (0, 0)

/-- `ComtradeParser._parse_analog_channel`. -/
def parse_analog_channel (line : String) (default_idx : Int) : ComtradeChannel :=
  let parts := split_cfg_line line
  { signal_type := .analog
    index := if parts.length > 0 then (pyInt? (parts.getD 0 "")).getD default_idx
             else default_idx
    name := parts.getD 1 ("A" ++ toString default_idx)
    phase := parts.getD 2 ""
    circuit_component := parts.getD 3 ""
    unit := parts.getD 4 ""
    multiplier := if parts.length > 5 then (pyFloat? (parts.getD 5 "")).getD 1 else 1
    offset := if parts.length > 6 then (pyFloat? (parts.getD 6 "")).getD 0 else 0
    skew := if parts.length > 7 then (pyFloat? (parts.getD 7 "")).getD 0 else 0
    min_val := if parts.length > 8 then (pyFloat? (parts.getD 8 "")).getD (-99999) else -99999
    max_val := if parts.length > 9 then (pyFloat? (parts.getD 9 "")).getD 99999 else 99999
    primary := if parts.length > 10 then (pyFloat? (parts.getD 10 "")).getD 1 else 1
    secondary := if parts.length > 11 then (pyFloat? (parts.getD 11 "")).getD 1 else 1
    ps_type := if parts.length > 12 then pyStrip (parts.getD 12 "") else "P" }

/-- `ComtradeParser._parse_digital_channel`. -/
def parse_digital_channel (line : String) (default_idx : Int) : ComtradeChannel :=
  let parts := split_cfg_line line
  { signal_type := .binary
    index := if parts.length > 0 then (pyInt? (parts.getD 0 "")).getD default_idx
             else default_idx
    name := parts.getD 1 ("D" ++ toString default_idx)
    phase := parts.getD 2 ""
    circuit_component := parts.getD 3 ""
    normal_state := if parts.length > 4 then (pyInt? (parts.getD 4 "")).getD 0 else 0 }

/-- The sampling-rate lines: each line with at least two fields contributes
`(float(parts[0]), int(parts[1]))` when both conversions succeed; any
`ValueError` skips the line (which is still consumed). -/
def parseRateLine (line : String) : Option (Rat × Int) :=
  let parts := split_cfg_line line
  if parts.length ≥ 2 then
    match pyFloat? (parts.getD 0 ""), pyInt? (parts.getD 1 "") with
    | some rate, some end_sample => some (rate, end_sample)
    | _, _ => none
  else none

/-- Channel lines are numbered `i + 1` inside `parse_cfg`'s loops. -/
def parseChannelLines (f : String → Int → ComtradeChannel) (ls : List String) :
    List ComtradeChannel :=
  (ls.enumFrom 1).map (fun p => f p.2 (p.1 : Int))

/-- `ComtradeParser.parse_cfg`, as a function of the stripped line list (the
`FileNotFoundError` branch concerns the filesystem, not the text, and is not
modelled).  Fails only when fewer than two lines are present; every later
field is parsed behind a `try`/`except` with a documented default, and every
channel/rate loop stops at end-of-input. -/
def parse_cfg (lines : List String) : Except CfgError ComtradeConfig :=
  match lines with
  | l0 :: l1 :: rest =>
    -- line 1: station_name, rec_dev_id, rev_year
    let parts1 := split_cfg_line l0
    let station_name := parts1.getD 0 ""
    let rec_dev_id := parts1.getD 1 ""
    let rev_year : Int :=
      if parts1.length > 2 then (pyInt? (parts1.getD 2 "")).getD 1999 else 1999
    -- line 2: TT, ##A, ##D
    let parts2 := split_cfg_line l1
    let counts := scanChannelCounts parts2.tail
    let counts :=
      if counts.1 = 0 ∧ counts.2 = 0 ∧ parts2.length = 1 then
        match pyInt? (parts2.getD 0 "") with
        | some tt => (tt, counts.2)    -- legacy single-field form: all analog
        | none => counts
      else counts
    let num_analog := counts.1
    let num_digital := counts.2
    -- analog then digital channel lines
    let analog_channels := parseChannelLines parse_analog_channel
      (rest.take num_analog.toNat)
    let r1 := rest.drop num_analog.toNat
    let digital_channels := parseChannelLines parse_digital_channel
      (r1.take num_digital.toNat)
    let r2 := r1.drop num_digital.toNat
    -- line frequency
    let (line_freq, r3) : Rat × List String :=
      match r2 with
      | [] => (60, [])
      | x :: xs => ((pyFloat? x).getD 60, xs)
    -- number of sampling rates (at least one rate line is always consumed)
    let (num_rates, r4) : Int × List String :=
      match r3 with
      | [] => (0, [])
      | x :: xs => ((pyInt? x).getD 0, xs)
    let rate_count := (max num_rates 1).toNat
    let sampling_rates := (r4.take rate_count).filterMap parseRateLine
    let r5 := r4.drop rate_count
    -- timestamps (raw strings)
    let (start_timestamp, r6) : String × List String :=
      match r5 with
      | [] => ("", [])
      | x :: xs => (x, xs)
    let (trigger_timestamp, r7) : String × List String :=
      match r6 with
      | [] => ("", [])
      | x :: xs => (x, xs)
    -- data-encoding tag
    let (data_format, r8) : String × List String :=
      match r7 with
      | [] => ("ASCII", [])
      | x :: xs =>
        let fmt := pyStrip (pyUpper x)
        (if fmt = "ASCII" ∨ fmt = "BINARY" ∨ fmt = "BINARY32" ∨ fmt = "FLOAT32"
         then fmt else "ASCII", xs)
    -- time multiplier
    let time_multiplier : Rat :=
      match r8 with
      | [] => 1
      | x :: _ => (pyFloat? x).getD 1
    .ok { station_name := station_name
          rec_dev_id := rec_dev_id
          rev_year := rev_year
          num_analog := num_analog
          num_digital := num_digital
          analog_channels := analog_channels
          digital_channels := digital_channels
          line_freq := line_freq
          sampling_rates := sampling_rates
          start_timestamp := start_timestamp
          trigger_timestamp := trigger_timestamp
          data_format := data_format
          time_multiplier := time_multiplier }
  | _ => .error .tooShort

/-- `parse_cfg` applied to the text of an existing `.cfg` file. -/
def parseCfgText (text : String) : Except CfgError ComtradeConfig :=
  parse_cfg (pyReadStrippedLines text)

/-! ### ASCII data-record parser (`ComtradeParser.parse_dat_ascii`) -/

/-- One record of the `.dat` file as built by `parse_dat_ascii`. -/
structure DatRow where
  sample_num : Int
  timestamp : Int
  analog : List Rat
  digital : List Int
deriving DecidableEq, Repr

/-- The exception the `.dat` digital loop can raise: `parts[i]` with an
index below `-len(parts)` is an `IndexError`, which the surrounding
`except ValueError` does not catch. -/
inductive DatError where
  | indexError
deriving DecidableEq, Repr

/-- Python list subscription `l[i]`: a non-negative index in range reads
directly, a negative index within `-len(l) .. -1` wraps to the tail, and
anything else raises `IndexError`. -/
def pyListIndex (l : List String) (i : Int) : Except DatError String :=
  let j : Int := if i < 0 then (l.length : Int) + i else i
  if 0 ≤ j ∧ j < (l.length : Int) then Except.ok (l.getD j.toNat "")
  else Except.error DatError.indexError

/-- One iteration of the digital loop of `parse_dat_ascii` at row position
`i = 2 + num_a + j` (an `Int`: the source does not clamp a negative
`num_analog`): positions at or past the row's end are padded with `0`;
otherwise `int(parts[i])` runs with only `ValueError` caught (falling back
to `0`), so a wrapped negative index re-reads the row's tail and an index
below `-len(parts)` raises. -/
def datDigitalVal (parts : List String) (i : Int) : Except DatError Int :=
  if i < (parts.length : Int) then
    match pyListIndex parts i with
    | Except.error e => Except.error e
    | Except.ok s => Except.ok ((pyInt? s).getD 0)
  else Except.ok 0

/-- The digital loop `for i in range(2 + num_a, 2 + num_a + num_d)`, run
over the offsets `j` of that range; the first `IndexError` aborts. -/
def datDigitalVals (parts : List String) (num_a : Int) :
    List Nat → Except DatError (List Int)
  | [] => Except.ok []
  | j :: js =>
    match datDigitalVal parts (2 + num_a + (j : Int)) with
    | Except.error e => Except.error e
    | Except.ok v =>
      match datDigitalVals parts num_a js with
      | Except.error e => Except.error e
      | Except.ok vs => Except.ok (v :: vs)

/-- The per-line body of `parse_dat_ascii`, for channel counts `num_a`
and `num_d` taken from the previously parsed config: blank lines, lines with
fewer than two fields, and lines whose sample number or timestamp fail
`int()` are skipped (`.ok none`); an emitted row slices positions
`2 .. 2+num_a` as analog — these indices start at 2, so they never go
negative and the loop is total, padding missing/unparsable positions with
`0.0` — and positions `2+num_a .. 2+num_a+num_d` as digital, which for a
negative `num_a` dips into Python's negative-index semantics and can raise
(`.error`). -/
def parse_dat_line (num_a num_d : Int) (line : String) :
    Except DatError (Option DatRow) :=
  let line := pyStrip line
  if line = "" then Except.ok none
  else
    let parts := pySplitOn line ','
    if parts.length < 2 then Except.ok none
    else
      match pyInt? (parts.getD 0 ""), pyInt? (parts.getD 1 "") with
      | some sample_num, some timestamp =>
        let analog := (List.range num_a.toNat).map (fun j =>
          let i := 2 + j
          if i < parts.length then (pyFloat? (parts.getD i "")).getD 0 else 0)
        match datDigitalVals parts num_a (List.range num_d.toNat) with
        | Except.error e => Except.error e
        | Except.ok digital =>
          Except.ok (some { sample_num := sample_num, timestamp := timestamp,
                            analog := analog, digital := digital })
      | _, _ => Except.ok none

/-- `ComtradeParser.parse_dat_ascii` over the file's lines: rows accumulate
in order and the first uncaught exception aborts the whole call. -/
def parse_dat_ascii (num_a num_d : Int) : List String → Except DatError (List DatRow)
  | [] => Except.ok []
  | l :: ls =>
    match parse_dat_line num_a num_d l with
    | Except.error e => Except.error e
    | Except.ok none => parse_dat_ascii num_a num_d ls
    | Except.ok (some row) =>
      match parse_dat_ascii num_a num_d ls with
      | Except.error e => Except.error e
      | Except.ok rows => Except.ok (row :: rows)

/-! ### Disturbance-report extraction
(`XRIOParser._extract_disturbance_report_signals`, channel loop) -/

/-- One value of the per-block `params_map`: `{'val': ..., 'desc': ...}`
(enumeration ids already resolved). -/
structure ParamData where
  val : String
  desc : String
deriving DecidableEq, Repr

/-- `models.signal_models.DisturbanceReportSignal`. -/
structure DisturbanceReportSignal where
  channel : Nat
  name : String := ""
  description : String := ""
  trig_operation : String := ""
  trig_level : String := ""
  indication_mask : String := ""
  set_led : String := ""
  block : String := ""
deriving DecidableEq, Repr

/-- Lookup in the block's `params_map` (a dict keyed by parameter name). -/
def lookupParam (params : List (String × ParamData)) (k : String) : Option ParamData :=
  (params.find? (fun p => p.1 = k)).map (fun p => p.2)

/-- `f"{i:02d}"`: the zero-padded suffix form. -/
def pad2 (i : Nat) : String :=
  if i < 10 then "0" ++ toString i else toString i

/-- A correlated field of the channel: read at suffix `{i:02d}` with an empty
default, falling back to the plain suffix when the padded value is empty. -/
def drField (params : List (String × ParamData)) (stem : String) (i : Nat) : ParamData :=
  let t0 := (lookupParam params (stem ++ pad2 i)).getD ⟨"", ""⟩
  if t0.val = "" then
    match lookupParam params (stem ++ toString i) with
    | some t => t
    | none => t0
  else t0

/-- The body of the channel loop (`for i in range(1, 97)`) of
`_extract_disturbance_report_signals`: a channel is assembled only when
`NAME<i>` resolves, first in plain then in zero-padded suffix form. -/
def drChannelOf (params : List (String × ParamData)) (block : String)
    (i : Nat) : Option DisturbanceReportSignal :=
  let nameData :=
    match lookupParam params ("NAME" ++ toString i) with
    | some d => some d
    | none => lookupParam params ("NAME" ++ pad2 i)
  match nameData with
  | none => none
  | some nd =>
    some { channel := i
           name := nd.val
           description := nd.desc
           trig_operation := (drField params "TrigDR" i).val
           trig_level := (drField params "TrigLevel" i).val
           indication_mask := (drField params "IndicationMa" i).val
           set_led := (drField params "SetLED" i).val
           block := block }

/-- The signals one `ID_GENERAL` block (whose parent matched `B<digits>RBDR`)
contributes: channel indices 1..96 in order, skipping unresolved names. -/
def extract_dr_channels (params : List (String × ParamData)) (block : String) :
    List DisturbanceReportSignal :=
  (List.range' 1 96).filterMap (drChannelOf params block)

/-! ### Alias store persistence (`AliasDatabase._load` / import / export) -/

/-- JSON values, as produced by `json.load`. -/
inductive Json where
  | null
  | bool (b : Bool)
  | num (n : Rat)
  | str (s : String)
  | arr (elems : List Json)
  | obj (fields : List (String × Json))

/-- The exceptions the load/import paths can meet.  `json.JSONDecodeError`
is modelled upstream: a file whose text does not decode reaches `_load` as
`none`. -/
inductive PyErr where
  | typeError
  | keyError
  | attributeError
deriving DecidableEq, Repr

/-- The field names of the `AliasEntry` dataclass: any other keyword makes
`AliasEntry(**data)` raise `TypeError`. -/
def aliasFieldNames : List String :=
  ["relay_name", "standard_name", "relay_model", "signal_type", "function",
   "auto_detected", "validated"]

/-- `AliasEntry(**data)` viewed as keyword-argument filtering: `data` must be
a mapping and every key must be a dataclass field, else `TypeError`; the
values themselves are stored without any type check. -/
def kwargsOfJson : Json → Except PyErr (List (String × Json))
  | .obj kvs =>
    if kvs.all (fun kv => aliasFieldNames.contains kv.1) then .ok kvs
    else .error .typeError
  | _ => .error .typeError

/-- The `for key, data in raw.items()` loop of `_load`: builds the raw entry
map, propagating the first construction error. -/
def buildRawEntries : List (String × Json) → Except PyErr (List (String × List (String × Json)))
  | [] => .ok []
  | (k, v) :: rest =>
    match kwargsOfJson v with
    | .error e => .error e
    | .ok kw =>
      match buildRawEntries rest with
      | .error e => .error e
      | .ok es => .ok ((k, kw) :: es)

/-- `AliasDatabase._load` on the decoded content of an existing backing file:
`none` stands for text `json.load` rejects (`JSONDecodeError`, caught →
empty store); a decoded object runs the entry loop with `TypeError`/`KeyError`
caught (→ empty store); any other decoded value hits `raw.items()` and
raises `AttributeError`, which the `except` clause does not list. -/
def loadAliasStore : Option Json → Except PyErr (List (String × List (String × Json)))
  | none => .ok []
  | some (.obj kvs) =>
    match buildRawEntries kvs with
    | .ok es => .ok es
    | .error .typeError => .ok []
    | .error .keyError => .ok []
    | .error .attributeError => .error .attributeError
  | some _ => .error .attributeError

/-- The serialized form of one entry, as written by `save`/`export_to_json`. -/
def entryFieldsJson (e : AliasEntry) : List (String × Json) :=
  [("relay_name", .str e.relay_name),
   ("standard_name", .str e.standard_name),
   ("relay_model", .str e.relay_model),
   ("signal_type", .str e.signal_type),
   ("function", .str e.function),
   ("auto_detected", .bool e.auto_detected),
   ("validated", .bool e.validated)]

/-- `AliasDatabase.export_to_json`: dump every entry under its store key. -/
def export_to_json (db : AliasDb) : List (String × List (String × Json)) :=
  db.map (fun p => (p.1, entryFieldsJson p.2))

/-- `AliasEntry(**data)` on a record whose present values carry the field's
type (the only shape `export_to_json`/`save` emit); absent fields take the
dataclass defaults, unknown keywords or ill-typed values are rejected. -/
def entryOfKwargs (kvs : List (String × Json)) : Option AliasEntry :=
  if !kvs.all (fun kv => aliasFieldNames.contains kv.1) then none
  else
    let gs := fun (k d : String) =>
      match (kvs.find? (fun kv => kv.1 = k)).map (fun kv => kv.2) with
      | some (Json.str s) => some s
      | none => some d
      | some _ => none
    let gb := fun (k : String) (d : Bool) =>
      match (kvs.find? (fun kv => kv.1 = k)).map (fun kv => kv.2) with
      | some (Json.bool b) => some b
      | none => some d
      | some _ => none
    match gs "relay_name" "", gs "standard_name" "", gs "relay_model" "",
          gs "signal_type" "analog", gs "function" "",
          gb "auto_detected" false, gb "validated" false with
    | some rn, some sn, some rm, some st, some fn, some ad, some vd =>
      some { relay_name := rn, standard_name := sn, relay_model := rm,
             signal_type := st, function := fn, auto_detected := ad,
             validated := vd }
    | _, _, _, _, _, _, _ => none

/-- The loop body of `import_from_json`: `add` the reconstructed entry and
count it when its key was new; a record the entry constructor rejects
raises out of the whole call (`none`). -/
def importStep (acc : Option (AliasDb × Nat))
    (kv : String × List (String × Json)) : Option (AliasDb × Nat) :=
  match acc with
  | none => none
  | some (d, c) =>
    match entryOfKwargs kv.2 with
    | none => none
    | some e =>
      match dbAdd e d with
      | (d2, isNew) => some (d2, c + (if isNew then 1 else 0))

/-- `AliasDatabase.import_from_json` on decoded file content. -/
def import_from_json (file : List (String × List (String × Json)))
    (db : AliasDb) : Option (AliasDb × Nat) :=
  file.foldl importStep (some (db, 0))

/-! ### Concrete stores used to exercise the store-level properties -/

/-- An alias entry mapping relay name `N` to standard name `S` under model `M`. -/
def exEntry7 : AliasEntry :=
  { relay_name := "N", standard_name := "S", relay_model := "M",
    signal_type := "analog", function := "", auto_detected := false,
    validated := false }

/-- A store whose single entry sits under a non-canonical key (reachable by
`_load`, since the backing format is hand-editable). -/
def exDb7 : AliasDb := [("weird", exEntry7)]

/-- Entry `ia → S1` under model `M`, stored under its canonical key. -/
def exEntryIa : AliasEntry :=
  { relay_name := "ia", standard_name := "S1", relay_model := "M",
    signal_type := "analog", function := "", auto_detected := false,
    validated := false }

/-- Entry `IA → S2` under model `M`, stored under its canonical key. -/
def exEntryIA : AliasEntry :=
  { relay_name := "IA", standard_name := "S2", relay_model := "M",
    signal_type := "analog", function := "", auto_detected := false,
    validated := false }

/-- A store holding two entries whose relay names differ only by case. -/
def exDb10 : AliasDb := [("M::ia", exEntryIa), ("M::IA", exEntryIA)]

/-- The row `parse_dat_ascii` emits for data line `1,2,3` under a config
with two analog and one digital channel. -/
def datRow8 : DatRow :=
  match parse_dat_line 2 1 "1,2,3" with
  | Except.ok (some r) => r
  | _ => ⟨0, 0, [], []⟩

/-! ## Helper lemmas -/

theorem mem_stripPrefixStep {c : Char} {n : List Char} {p : String}
    (h : c ∈ stripPrefixStep n p) : c ∈ n := by
  unfold stripPrefixStep at h
  split at h
  · exact List.drop_subset _ _ h
  · exact h

theorem mem_foldl_stripPrefixStep {c : Char} :
    ∀ (ps : List String) (n : List Char),
      c ∈ ps.foldl stripPrefixStep n → c ∈ n := by
  intro ps
  induction ps with
  | nil => intro n h; exact h
  | cons p t ih =>
    intro n h
    exact mem_stripPrefixStep (ih (stripPrefixStep n p) h)

/-! ## Claim theorems -/

/-- C6: `normalize("REL_IL1_MAG")` and `normalize("IL1MAG")` reduce to equal
strings; the prefix-stripping step drops `len(prefix) - 1` characters, which
is exactly the number of letters of each matched prefix (each prefix carries
exactly one `_`, and separators were already removed), so no stray separator
character can remain in a normalized name. -/
theorem normalize_prefix_stripping :
    normalize_name "REL_IL1_MAG" = normalize_name "IL1MAG"
    ∧ (∀ p ∈ MANUFACTURER_PREFIXES, (prefixLetters p).length = p.length - 1)
    ∧ (∀ (name : List Char) (c : Char), c ∈ normalizeChars name → isSepChar c = false) := by
  refine ⟨by decide, by decide, ?_⟩
  intro name c hc
  unfold normalizeChars at hc
  have hmem := mem_foldl_stripPrefixStep MANUFACTURER_PREFIXES _ hc
  have hf := (List.mem_filter.mp hmem).2
  simpa using hf

/-- Witness for C6 at concrete inputs: the prefix `REL_` loses exactly its
three letters, and the normalized form of `A_I` is separator-free. -/
theorem normalize_prefix_stripping_witness :
    (prefixLetters "REL_").length = "REL_".length - 1 ∧ isSepChar 'I' = false :=
  ⟨normalize_prefix_stripping.2.1 "REL_" (by decide),
   normalize_prefix_stripping.2.2 "A_I".data 'I' (by decide)⟩

/-- C2: whenever a signal name case-insensitively equals an entry of the
static standard-name catalog, `_validate_signal` answers at tier 1 with
match type `exact` and confidence `1.0`, whatever the alias store and the
optionally supplied COMTRADE configuration hold — tier 1 is tested first and
returns immediately, so it always wins over the lower tiers. -/
theorem exact_catalog_match_wins (db : AliasDb) (cfg : Option ComtradeConfig)
    (name model ty : String)
    (h : (get_all_standard_signal_names.map pyUpper).contains (pyUpper name) = true) :
    (validate_signal db cfg name model ty).1.match_type = "exact"
    ∧ (validate_signal db cfg name model ty).1.confidence = 1 := by
  unfold validate_signal
  rw [if_pos h]
  exact ⟨rfl, rfl⟩

/-- Witness for C2: `ia` matches catalog entry `IA` case-insensitively and
resolves at tier `exact` with confidence 1. -/
theorem exact_catalog_match_wins_witness :
    (get_all_standard_signal_names.map pyUpper).contains (pyUpper "ia") = true
    ∧ ((validate_signal [] none "ia" "M" "analog").1.match_type = "exact"
       ∧ (validate_signal [] none "ia" "M" "analog").1.confidence = 1) :=
  ⟨by decide, exact_catalog_match_wins [] none "ia" "M" "analog" (by decide)⟩

/-- Overwriting an existing key rewrites its slot in place, so an exact
lookup afterwards sees the new entry. -/
theorem find_map_overwrite (k : String) (e : AliasEntry) :
    ∀ (l : List (String × AliasEntry)), l.any (fun p => p.1 = k) = true →
      (l.map (fun p => if p.1 = k then (k, e) else p)).find? (fun p => p.1 = k)
        = some (k, e) := by
  intro l
  induction l with
  | nil => intro h; simp at h
  | cons p t ih =>
    intro h
    by_cases hp : p.1 = k
    · simp [hp, List.find?]
    · have ht : t.any (fun q => q.1 = k) = true := by
        rcases List.any_eq_true.mp h with ⟨q, hq, hqk⟩
        rcases List.mem_cons.mp hq with rfl | hq'
        · exact absurd (of_decide_eq_true hqk) hp
        · exact List.any_eq_true.mpr ⟨q, hq', hqk⟩
      simp only [List.map_cons, if_neg hp]
      rw [List.find?_cons_of_neg _ (by simpa using hp)]
      exact ih ht

/-- Appending a fresh key puts it where `find?` reaches it after the misses. -/
theorem find_append_fresh (k : String) (e : AliasEntry) :
    ∀ (l : List (String × AliasEntry)), l.any (fun p => p.1 = k) = false →
      (l ++ [(k, e)]).find? (fun p => p.1 = k) = some (k, e) := by
  intro l
  induction l with
  | nil => intro _; simp [List.find?]
  | cons p t ih =>
    intro h
    have hp : ¬ p.1 = k := by
      intro hk
      have : (p :: t).any (fun q => q.1 = k) = true :=
        List.any_eq_true.mpr ⟨p, List.mem_cons_self p t, by simpa using hk⟩
      rw [h] at this; cases this
    have ht : t.any (fun q => q.1 = k) = false := by
      cases hany : t.any (fun q => q.1 = k) with
      | false => rfl
      | true =>
        rcases List.any_eq_true.mp hany with ⟨q, hq, hqk⟩
        have : (p :: t).any (fun q => q.1 = k) = true :=
          List.any_eq_true.mpr ⟨q, List.mem_cons_of_mem p hq, hqk⟩
        rw [h] at this; cases this
    rw [List.cons_append, List.find?_cons_of_neg _ (by simpa using hp)]
    exact ih ht

/-- After `add`, the exact key of the added entry resolves to that entry. -/
theorem dbGet_dbAdd_self (e : AliasEntry) (db : AliasDb) :
    dbGet (dbAdd e db).1 e.relay_model e.relay_name = some e := by
  unfold dbGet dbAdd AliasEntry.key
  cases hany : db.any (fun p => p.1 = e.relay_model ++ "::" ++ e.relay_name) with
  | true =>
    rw [if_pos hany]
    rw [find_map_overwrite _ e db hany]
    rfl
  | false =>
    rw [if_neg (by simp [hany])]
    rw [find_append_fresh _ e db hany]
    rfl

/-- C3 (counterexample): validating the exact-catalog name `IA` against an
empty store does record an alias under key `M::IA` with the auto-detected
flag set — but its validated flag is cleared (`validated = not auto`), not
set as the claim states. -/
theorem tier1_alias_validated_flag_counterexample :
    ((dbGet (validate_signal [] none "IA" "M" "analog").2 "M" "IA").map
      (fun e => (e.auto_detected, e.validated))) = some (true, false) := by
  decide

/-- C3 (amended): whenever a signal resolves at tier 1, the validator
immediately records/overwrites an alias entry keyed `(relay_model, name)`
whose auto-detected flag is set and whose validated flag is cleared — the
entry is written through `_auto_add_alias(..., auto=True)`, which sets
`validated = not auto = False`. -/
theorem tier1_alias_auto_detected_not_validated (db : AliasDb)
    (cfg : Option ComtradeConfig) (name model ty : String)
    (h : (get_all_standard_signal_names.map pyUpper).contains (pyUpper name) = true) :
    dbGet (validate_signal db cfg name model ty).2 model name
      = some (autoAliasEntry name name model ty true)
    ∧ (autoAliasEntry name name model ty true).auto_detected = true
    ∧ (autoAliasEntry name name model ty true).validated = false := by
  refine ⟨?_, rfl, rfl⟩
  unfold validate_signal
  rw [if_pos h]
  exact dbGet_dbAdd_self (autoAliasEntry name name model ty true) db

/-- Witness for C3's amended theorem at the tier-1 input `IA`. -/
theorem tier1_alias_auto_detected_not_validated_witness :
    (get_all_standard_signal_names.map pyUpper).contains (pyUpper "IA") = true
    ∧ (dbGet (validate_signal [] none "IA" "M" "analog").2 "M" "IA"
        = some (autoAliasEntry "IA" "IA" "M" "analog" true)
       ∧ (autoAliasEntry "IA" "IA" "M" "analog" true).auto_detected = true
       ∧ (autoAliasEntry "IA" "IA" "M" "analog" true).validated = false) :=
  ⟨by decide, tier1_alias_auto_detected_not_validated [] none "IA" "M" "analog" (by decide)⟩

/-- Every call of `_validate_signal` either returns the store unchanged or
answers at tier 1 (`exact`, confidence 1) or tier 3 (`fuzzy`, confidence
0.7) — the only two tiers that call `_auto_add_alias`. -/
theorem validate_signal_store_cases (db : AliasDb) (cfg : Option ComtradeConfig)
    (name model ty : String) :
    (validate_signal db cfg name model ty).2 = db
    ∨ ((validate_signal db cfg name model ty).1.confidence = 1
       ∧ (validate_signal db cfg name model ty).1.match_type = "exact")
    ∨ ((validate_signal db cfg name model ty).1.confidence = 0.7
       ∧ (validate_signal db cfg name model ty).1.match_type = "fuzzy") := by
  unfold validate_signal
  split
  · right; left; exact ⟨rfl, rfl⟩
  · split
    · left; rfl
    · cases cfg with
      | none =>
        cases hh : heuristic_match name ty <;> simp [hh]
      | some c =>
        cases hch : (if ty = "analog" then c.analog_channels
            else c.digital_channels).find? (fun ch => fuzzy_match name ch.name) with
        | some ch => simp [hch]
        | none =>
          cases hh : heuristic_match name ty <;> simp [hch, hh]

/-- C4: a validation that answers at tier 4 (heuristic-vs-catalog: match
type `fuzzy` with confidence 0.5) or at tier 5 (`new`) leaves the alias
store untouched; and an unrecognized name — no catalog hit, no alias, no
heuristic candidate — validated with no supplied config yields tier `new`,
confidence 0.0, and no store mutation. -/
theorem tier45_leave_store_unchanged :
    (∀ (db : AliasDb) (cfg : Option ComtradeConfig) (name model ty : String),
      (validate_signal db cfg name model ty).1.confidence = 0.5
        ∨ (validate_signal db cfg name model ty).1.match_type = "new" →
      (validate_signal db cfg name model ty).2 = db)
    ∧ (∀ (db : AliasDb) (name model ty : String),
      (get_all_standard_signal_names.map pyUpper).contains (pyUpper name) = false →
      find_standard_for db model name = none →
      heuristic_match name ty = none →
      (validate_signal db none name model ty).1.match_type = "new"
      ∧ (validate_signal db none name model ty).1.confidence = 0
      ∧ (validate_signal db none name model ty).2 = db) := by
  constructor
  · intro db cfg name model ty h
    rcases validate_signal_store_cases db cfg name model ty with hdb | ⟨hc, hm⟩ | ⟨hc, hm⟩
    · exact hdb
    · rcases h with h | h
      · rw [hc] at h; norm_num at h
      · rw [hm] at h; exact absurd h (by decide)
    · rcases h with h | h
      · rw [hc] at h; norm_num at h
      · rw [hm] at h; exact absurd h (by decide)
  · intro db name model ty h1 h2 h3
    unfold validate_signal
    rw [if_neg (by intro hx; rw [h1] at hx; exact Bool.noConfusion hx), h2, h3]
    exact ⟨rfl, rfl, rfl⟩

/-- Witness for C4's scenario-D part: `ZZZX9X` hits no tier against an
empty store and no config, and the store is left empty. -/
theorem tier45_leave_store_unchanged_witness :
    ((get_all_standard_signal_names.map pyUpper).contains (pyUpper "ZZZX9X") = false
     ∧ find_standard_for [] "M" "ZZZX9X" = none
     ∧ heuristic_match "ZZZX9X" "analog" = none)
    ∧ ((validate_signal [] none "ZZZX9X" "M" "analog").1.match_type = "new"
       ∧ (validate_signal [] none "ZZZX9X" "M" "analog").1.confidence = 0
       ∧ (validate_signal [] none "ZZZX9X" "M" "analog").2 = []) :=
  ⟨⟨by decide, by decide, by decide⟩,
   tier45_leave_store_unchanged.2 [] "ZZZX9X" "M" "analog"
     (by decide) (by decide) (by decide)⟩

/-- C1: for the text of an existing configuration file, `parse_cfg` fails
with the malformed-input error exactly when the text has fewer than 2 lines;
any text with at least 2 lines yields a `ComtradeConfig`, whatever garbage
the fields hold — every per-field failure takes a documented default, so the
parse is total past the length check. -/
theorem parse_cfg_fails_iff_too_short (text : String) :
    (parseCfgText text = Except.error CfgError.tooShort
      ↔ (pyReadStrippedLines text).length < 2)
    ∧ (2 ≤ (pyReadStrippedLines text).length →
        ∃ c, parseCfgText text = Except.ok c) := by
  unfold parseCfgText
  rcases h : pyReadStrippedLines text with _ | ⟨a, _ | ⟨b, t2⟩⟩
  · exact ⟨iff_of_true rfl (by decide), fun hx => absurd hx (by decide)⟩
  · exact ⟨iff_of_true rfl (by simp), fun hx => absurd hx (by simp)⟩
  · have hok : ∃ c, parse_cfg (a :: b :: t2) = Except.ok c := ⟨_, rfl⟩
    obtain ⟨c, hc⟩ := hok
    refine ⟨?_, fun _ => ⟨c, hc⟩⟩
    rw [hc]
    exact iff_of_false (by simp) (by simp only [List.length_cons]; omega)

/-- Witness for C1 on a two-line configuration text. -/
theorem parse_cfg_fails_iff_too_short_witness :
    2 ≤ (pyReadStrippedLines "STATION,DEV,1999\n2,1A,1D").length
    ∧ ∃ c, parseCfgText "STATION,DEV,1999\n2,1A,1D" = Except.ok c :=
  ⟨by decide, (parse_cfg_fails_iff_too_short "STATION,DEV,1999\n2,1A,1D").2 (by decide)⟩

/-- A digital-loop iteration at a non-negative row position never raises:
the in-range guard and the direct (non-wrapping) subscription agree. -/
theorem datDigitalVal_ok_of_nonneg (parts : List String) (i : Int) (h : 0 ≤ i) :
    ∃ v, datDigitalVal parts i = Except.ok v := by
  unfold datDigitalVal
  split
  · rename_i hlt
    unfold pyListIndex
    dsimp only
    rw [if_neg (show ¬ i < 0 by omega)]
    rw [if_pos (show 0 ≤ i ∧ i < (parts.length : Int) from ⟨h, hlt⟩)]
    exact ⟨_, rfl⟩
  · exact ⟨0, rfl⟩

/-- A successful digital loop yields one value per index. -/
theorem datDigitalVals_length (parts : List String) (num_a : Int) :
    ∀ {js : List Nat} {vs : List Int},
      datDigitalVals parts num_a js = Except.ok vs → vs.length = js.length := by
  intro js
  induction js with
  | nil =>
    intro vs h
    injection h with h
    rw [← h]
    rfl
  | cons j t ih =>
    intro vs h
    unfold datDigitalVals at h
    cases hv : datDigitalVal parts (2 + num_a + (j : Int)) with
    | error e => rw [hv] at h; exact Except.noConfusion h
    | ok v =>
      rw [hv] at h
      cases hr : datDigitalVals parts num_a t with
      | error e => rw [hr] at h; exact Except.noConfusion h
      | ok vs2 =>
        rw [hr] at h
        injection h with h
        rw [← h]
        simp [ih hr]

/-- With a non-negative analog count every digital position `2 + num_a + j`
is non-negative, so the digital loop cannot raise. -/
theorem datDigitalVals_ok_of_nonneg (parts : List String) (num_a : Int)
    (ha : 0 ≤ num_a) :
    ∀ js : List Nat, ∃ vs, datDigitalVals parts num_a js = Except.ok vs := by
  intro js
  induction js with
  | nil => exact ⟨[], rfl⟩
  | cons j t ih =>
    obtain ⟨v, hv⟩ := datDigitalVal_ok_of_nonneg parts (2 + num_a + (j : Int))
      (by have := Int.natCast_nonneg j; omega)
    obtain ⟨vs, hvs⟩ := ih
    exact ⟨v :: vs, by unfold datDigitalVals; rw [hv, hvs]⟩

/-- C8 (counterexample): `parse_cfg` accepts negative channel-count tokens on
line 2 (`int("-3")` succeeds), so parsed configs with `num_analog < 0` are
reachable, and they break the claim twice.  With `num_analog = -3`,
`num_digital = 0`, the data line `1,2` is emitted with `0` analog values,
not "exactly `num_analog`" of them.  With `num_analog = -9`,
`num_digital = 2` (config line 2 `0,-9A,2D`), the same data line evaluates
`parts[-7]` on a 2-field row, raising an uncaught `IndexError` — so
`parse_dat_ascii` does not "never raise"; and with `num_analog = -3`,
`num_digital = 1` the index `-1` silently wraps, re-reading the timestamp
field `2` as the digital value. -/
theorem negative_channel_count_row_counterexample :
    (parseCfgText "S,D\n0,-3A").toOption.map ComtradeConfig.num_analog = some (-3)
    ∧ parse_dat_line (-3) 0 "1,2"
        = Except.ok (some { sample_num := 1, timestamp := 2,
                            analog := [], digital := [] })
    ∧ ((0 : Int) ≠ (-3 : Int))
    ∧ (parseCfgText "S,D\n0,-9A,2D").toOption.map
        (fun c => (c.num_analog, c.num_digital)) = some (-9, 2)
    ∧ parse_dat_line (-9) 2 "1,2" = Except.error DatError.indexError
    ∧ parse_dat_line (-3) 1 "1,2"
        = Except.ok (some { sample_num := 1, timestamp := 2,
                            analog := [], digital := [2] }) :=
  ⟨by decide, rfl, by decide, by decide, rfl, rfl⟩

/-- C8 (amended): for every data line, provided the previously parsed
config's channel counts are non-negative, `parse_dat_ascii` never raises
— blank, short and unnumbered lines are skipped — and every row it emits
carries exactly `num_analog` analog values and `num_digital` digital
values, short rows padded with `0.0` / `0` rather than failing.  (A config
with negative `num_analog` breaks both guarantees: the digital loop reads
`parts` at negative indices, silently re-reading the row's tail while the
index stays within `-len(parts)`, and raising an uncaught `IndexError`
below that.) -/
theorem dat_row_channel_counts (num_a num_d : Int) (line : String)
    (ha : 0 ≤ num_a) (hd : 0 ≤ num_d) :
    (∃ r, parse_dat_line num_a num_d line = Except.ok r)
    ∧ ∀ row, parse_dat_line num_a num_d line = Except.ok (some row) →
        ((row.analog.length : Int) = num_a ∧ (row.digital.length : Int) = num_d) := by
  unfold parse_dat_line
  dsimp only
  split
  · exact ⟨⟨none, rfl⟩, fun row h => by
      injection h with h; exact Option.noConfusion h⟩
  · split
    · exact ⟨⟨none, rfl⟩, fun row h => by
        injection h with h; exact Option.noConfusion h⟩
    · split
      · obtain ⟨vs, hvs⟩ := datDigitalVals_ok_of_nonneg
          (pySplitOn (pyStrip line) ',') num_a ha (List.range num_d.toNat)
        rw [hvs]
        refine ⟨⟨_, rfl⟩, ?_⟩
        intro row h
        injection h with h
        injection h with h
        subst h
        constructor
        · simp [List.length_map, List.length_range, Int.toNat_of_nonneg ha]
        · have := datDigitalVals_length _ num_a hvs
          simp only [List.length_range] at this
          simp [this, Int.toNat_of_nonneg hd]
      · exact ⟨⟨none, rfl⟩, fun row h => by
          injection h with h; exact Option.noConfusion h⟩

/-- Witness for C8's amended theorem: under counts `2`/`1` the short line
`1,2,3` is accepted and padded to two analog and one digital value. -/
theorem dat_row_channel_counts_witness :
    ((0 : Int) ≤ 2 ∧ (0 : Int) ≤ 1)
    ∧ (∃ r, parse_dat_line 2 1 "1,2,3" = Except.ok r)
    ∧ parse_dat_line 2 1 "1,2,3" = Except.ok (some datRow8)
    ∧ ((datRow8.analog.length : Int) = 2 ∧ (datRow8.digital.length : Int) = 1) :=
  ⟨⟨by decide, by decide⟩,
   (dat_row_channel_counts 2 1 "1,2,3" (by decide) (by decide)).1,
   rfl,
   (dat_row_channel_counts 2 1 "1,2,3" (by decide) (by decide)).2 datRow8 rfl⟩

/-- A channel record carries the index it was assembled for. -/
theorem drChannelOf_channel {params : List (String × ParamData)} {block : String}
    {i : Nat} {s : DisturbanceReportSignal}
    (h : drChannelOf params block i = some s) : s.channel = i := by
  unfold drChannelOf at h
  dsimp only at h
  split at h
  · exact Option.noConfusion h
  · injection h with h
    subst h
    rfl

/-- A channel is assembled exactly when `NAME<i>` resolves in plain or
zero-padded suffix form. -/
theorem drChannelOf_isSome (params : List (String × ParamData)) (block : String)
    (i : Nat) :
    (drChannelOf params block i).isSome = true
      ↔ ((lookupParam params ("NAME" ++ toString i)).isSome = true
         ∨ (lookupParam params ("NAME" ++ pad2 i)).isSome = true) := by
  unfold drChannelOf
  cases h1 : lookupParam params ("NAME" ++ toString i) <;>
    cases h2 : lookupParam params ("NAME" ++ pad2 i) <;>
      simp [h1, h2]

/-- C9: in the channel loop run for one `ID_GENERAL` block whose parent
matched `B<digits>RBDR`, every emitted signal's channel lies in 1..96, and
for each index `i` in that range a signal for channel `i` is emitted if and
only if the block's parameter map contains a `NAME<i>` key in plain or
zero-padded suffix form; a channel with no resolved name is skipped. -/
theorem dr_channel_emitted_iff_name_present (params : List (String × ParamData))
    (block : String) :
    (∀ s ∈ extract_dr_channels params block, 1 ≤ s.channel ∧ s.channel ≤ 96)
    ∧ (∀ i : Nat, 1 ≤ i → i ≤ 96 →
        (((extract_dr_channels params block).any (fun s => s.channel = i)) = true
          ↔ ((lookupParam params ("NAME" ++ toString i)).isSome = true
             ∨ (lookupParam params ("NAME" ++ pad2 i)).isSome = true))) := by
  constructor
  · intro s hs
    obtain ⟨j, hj, hje⟩ := List.mem_filterMap.mp hs
    have hc := drChannelOf_channel hje
    have hr := List.mem_range'_1.mp hj
    omega
  · intro i h1 h96
    constructor
    · intro hany
      obtain ⟨s, hs, hsi⟩ := List.any_eq_true.mp hany
      obtain ⟨j, hj, hje⟩ := List.mem_filterMap.mp hs
      have hc := drChannelOf_channel hje
      have hii : j = i := by
        have := of_decide_eq_true hsi
        omega
      subst hii
      exact (drChannelOf_isSome params block j).mp (by rw [hje]; rfl)
    · intro hname
      obtain ⟨s, hse⟩ := Option.isSome_iff_exists.mp
        ((drChannelOf_isSome params block i).mpr hname)
      have hmem : s ∈ extract_dr_channels params block := by
        apply List.mem_filterMap.mpr
        exact ⟨i, List.mem_range'_1.mpr ⟨h1, by omega⟩, hse⟩
      exact List.any_eq_true.mpr
        ⟨s, hmem, decide_eq_true (drChannelOf_channel hse)⟩

/-- Witness for C9: with the parameter map holding only `NAME3`, channel 3
is emitted and the equivalence holds at `i = 3`. -/
theorem dr_channel_emitted_iff_name_present_witness :
    (1 ≤ 3 ∧ 3 ≤ 96)
    ∧ (((extract_dr_channels [("NAME3", ⟨"X", "d"⟩)] "B1RBDR").any
          (fun s => s.channel = 3)) = true
        ↔ ((lookupParam [("NAME3", ⟨"X", "d"⟩)] ("NAME" ++ toString 3)).isSome = true
           ∨ (lookupParam [("NAME3", ⟨"X", "d"⟩)] ("NAME" ++ pad2 3)).isSome = true)) :=
  ⟨⟨by decide, by decide⟩,
   (dr_channel_emitted_iff_name_present [("NAME3", ⟨"X", "d"⟩)] "B1RBDR").2 3
     (by decide) (by decide)⟩

/-- `AliasEntry(**data)` only ever raises `TypeError` on decoded JSON input
(JSON object keys are strings, so only a non-mapping or an unknown keyword
can fail). -/
theorem kwargsOfJson_error {v : Json} {e : PyErr}
    (h : kwargsOfJson v = Except.error e) : e = PyErr.typeError := by
  cases v with
  | obj kvs =>
    unfold kwargsOfJson at h
    dsimp only at h
    split at h
    · exact Except.noConfusion h
    · injection h with h2; exact h2.symm
  | null => injection h with h2; exact h2.symm
  | bool b => injection h with h2; exact h2.symm
  | num n => injection h with h2; exact h2.symm
  | str s => injection h with h2; exact h2.symm
  | arr l => injection h with h2; exact h2.symm

/-- The entry-construction loop of `_load` can only fail with `TypeError`. -/
theorem buildRawEntries_error :
    ∀ {l : List (String × Json)} {e : PyErr}, buildRawEntries l = Except.error e →
      e = PyErr.typeError := by
  intro l
  induction l with
  | nil => intro e h; exact Except.noConfusion h
  | cons kv rest ih =>
    intro e h
    obtain ⟨k, v⟩ := kv
    unfold buildRawEntries at h
    cases hk : kwargsOfJson v with
    | error e2 =>
      rw [hk] at h
      injection h with h2
      rw [← h2]
      exact kwargsOfJson_error hk
    | ok kw =>
      rw [hk] at h
      cases hr : buildRawEntries rest with
      | error e3 =>
        rw [hr] at h
        injection h with h2
        rw [← h2]
        exact ih hr
      | ok es =>
        rw [hr] at h
        exact Except.noConfusion h

/-- C5 (counterexample): a backing file holding the well-formed JSON text
`[]` — malformed content for the store, since it is not the expected
record-oriented mapping — makes `_load` raise `AttributeError` at
`raw.items()`, an exception the `except (JSONDecodeError, TypeError,
KeyError)` clause does not catch; the claim that no exception escapes for
every malformed content is false. -/
theorem load_nonobject_json_raises :
    loadAliasStore (some (Json.arr [])) = Except.error PyErr.attributeError := rfl

/-- C5 (amended): if the backing file's content fails JSON decoding, the
store loads empty; if it decodes to a JSON object, the load never raises,
and when the entry loop rejects a record (`TypeError`: a non-mapping value
or an unknown field name) the store again loads empty with no partial state.
Content decoding to a non-object JSON value, however, escapes with
`AttributeError`, and records with known field names are accepted without
value-type checks. -/
theorem malformed_backing_file_loads_empty (kvs : List (String × Json)) :
    loadAliasStore none = Except.ok []
    ∧ (∃ r, loadAliasStore (some (Json.obj kvs)) = Except.ok r)
    ∧ ((∃ e, buildRawEntries kvs = Except.error e) →
        loadAliasStore (some (Json.obj kvs)) = Except.ok []) := by
  refine ⟨rfl, ?_, ?_⟩
  · cases h : buildRawEntries kvs with
    | ok es => exact ⟨es, by simp [loadAliasStore, h]⟩
    | error e =>
      have he := buildRawEntries_error h
      subst he
      exact ⟨[], by simp [loadAliasStore, h]⟩
  · rintro ⟨e, he⟩
    have ht := buildRawEntries_error he
    subst ht
    simp [loadAliasStore, he]

/-- Witness for C5's amended theorem: a record whose value is the JSON
number `0` is rejected by entry construction, and the store loads empty. -/
theorem malformed_backing_file_loads_empty_witness :
    buildRawEntries [("k", Json.num 0)] = Except.error PyErr.typeError
    ∧ loadAliasStore (some (Json.obj [("k", Json.num 0)])) = Except.ok [] :=
  ⟨rfl,
   (malformed_backing_file_loads_empty [("k", Json.num 0)]).2.2 ⟨PyErr.typeError, rfl⟩⟩

/-- In a store with pairwise-distinct keys, a key determines its slot. -/
theorem key_unique :
    ∀ {l : List (String × AliasEntry)},
      l.Pairwise (fun p q => p.1 ≠ q.1) →
      ∀ {p q : String × AliasEntry}, p ∈ l → q ∈ l → p.1 = q.1 → p = q := by
  intro l
  induction l with
  | nil => intro _ p q hp; cases hp
  | cons x t ih =>
    intro hpw p q hp hq hk
    have hx := List.pairwise_cons.mp hpw
    rcases List.mem_cons.mp hp with rfl | hp'
    · rcases List.mem_cons.mp hq with rfl | hq'
      · rfl
      · exact absurd hk (hx.1 q hq')
    · rcases List.mem_cons.mp hq with rfl | hq'
      · exact absurd hk.symm (hx.1 p hp')
      · exact ih hx.2 hp' hq' hk

/-- Serializing an entry's fields and rebuilding the dataclass is lossless. -/
theorem entryOfKwargs_entryFieldsJson (e : AliasEntry) :
    entryOfKwargs (entryFieldsJson e) = some e := rfl

/-- Re-`add`ing an entry already stored under its own key overwrites it in
place with an identical value: the store is unchanged and the key is not
counted as new. -/
theorem dbAdd_mem_identical (e : AliasEntry) (db : AliasDb)
    (hnd : db.Pairwise (fun p q => p.1 ≠ q.1))
    (hmem : (e.key, e) ∈ db) :
    dbAdd e db = (db, false) := by
  unfold dbAdd
  have hany : db.any (fun p => p.1 = e.key) = true :=
    List.any_eq_true.mpr ⟨(e.key, e), hmem, by simp⟩
  rw [if_pos hany]
  have hmap : db.map (fun p => if p.1 = e.key then (e.key, e) else p) = db := by
    have : ∀ p ∈ db, (if p.1 = e.key then (e.key, e) else p) = p := by
      intro p hp
      by_cases hpk : p.1 = e.key
      · have : p = (e.key, e) := key_unique hnd hp hmem hpk
        rw [if_pos hpk, this]
      · rw [if_neg hpk]
    calc db.map (fun p => if p.1 = e.key then (e.key, e) else p)
        = db.map id := List.map_congr_left this
      _ = db := List.map_id db
  rw [hmap]

/-- Importing records that each rebuild to an entry already stored under its
own key leaves the store unchanged and counts zero new insertions. -/
theorem import_nochange :
    ∀ (L : List (String × List (String × Json))) (db : AliasDb),
      db.Pairwise (fun p q => p.1 ≠ q.1) →
      (∀ x ∈ L, ∃ e : AliasEntry, entryOfKwargs x.2 = some e ∧ (e.key, e) ∈ db) →
      import_from_json L db = some (db, 0) := by
  intro L
  induction L with
  | nil => intro db _ _; rfl
  | cons x t ih =>
    intro db hnd hL
    obtain ⟨e, he, hmem⟩ := hL x (List.mem_cons_self x t)
    have hstep : importStep (some (db, 0)) x = some (db, 0) := by
      unfold importStep
      rw [he]
      dsimp only
      rw [dbAdd_mem_identical e db hnd hmem]
      rfl
    show (x :: t).foldl importStep (some (db, 0)) = some (db, 0)
    rw [List.foldl_cons, hstep]
    exact ih db hnd (fun y hy => hL y (List.mem_cons_of_mem x hy))

/-- C7 (counterexample): a store whose single entry sits under the
non-canonical key `weird` (reachable, since `_load` trusts the hand-editable
backing file's keys) does not round-trip: importing its own export re-keys
the entry to `M::N`, reports one new insertion, and changes the entry set. -/
theorem roundtrip_noncanonical_key_counterexample :
    import_from_json (export_to_json exDb7) exDb7
      = some (exDb7 ++ [("M::N", exEntry7)], 1)
    ∧ import_from_json (export_to_json exDb7) exDb7 ≠ some (exDb7, 0) := by
  constructor
  · rfl
  · decide

/-- C7 (amended): for every alias store whose entries sit under their
canonical keys `relay_model::relay_name` (the invariant `add` maintains),
`export_to_json` followed by `import_from_json` of the exported records
yields the original entry set — every entry preserved with identical
fields — and zero new insertions: each imported entry is a duplicate that
is overwritten, not rejected. -/
theorem export_import_roundtrip (db : AliasDb)
    (hnd : db.Pairwise (fun p q => p.1 ≠ q.1))
    (hk : ∀ p ∈ db, p.1 = p.2.key) :
    import_from_json (export_to_json db) db = some (db, 0) := by
  apply import_nochange (export_to_json db) db hnd
  intro x hx
  obtain ⟨p, hp, hpx⟩ := List.mem_map.mp hx
  refine ⟨p.2, ?_, ?_⟩
  · rw [← hpx]
    exact entryOfKwargs_entryFieldsJson p.2
  · have : (p.2.key, p.2) = p := by
      rw [← hk p hp]
    rw [this]
    exact hp

/-- Witness for C7 at a one-entry store under its canonical key. -/
theorem export_import_roundtrip_witness :
    (([("M::N", exEntry7)] : AliasDb).Pairwise (fun p q => p.1 ≠ q.1)
     ∧ ∀ p ∈ ([("M::N", exEntry7)] : AliasDb), p.1 = p.2.key)
    ∧ import_from_json (export_to_json [("M::N", exEntry7)]) [("M::N", exEntry7)]
        = some ([("M::N", exEntry7)], 0) :=
  ⟨⟨by simp, by decide⟩,
   export_import_roundtrip [("M::N", exEntry7)] (by simp) (by decide)⟩

/-- C10 (counterexample): when another entry occupies the exact key formed
with the differently-cased name — here `M::IA` next to the stored `M::ia` —
`find_standard_for` does NOT miss the exact branch: it answers `S2` from the
exact key, not `S1`, the standard name of the first case-insensitive name
match across all models, so the claimed behaviour fails on this store. -/
theorem find_standard_for_shadowed_exact_counterexample :
    find_standard_for exDb10 "M" "IA" = some "S2"
    ∧ ((find_by_relay_name exDb10 "IA").map AliasEntry.standard_name).head? = some "S1"
    ∧ find_standard_for exDb10 "M" "IA"
        ≠ ((find_by_relay_name exDb10 "IA").head?).map AliasEntry.standard_name := by
  refine ⟨rfl, rfl, ?_⟩
  decide

/-- C10 (amended): exact-key alias lookups compare model and name
case-sensitively while `find_by_relay_name` compares names
case-insensitively; consequently, for every stored entry, querying
`find_standard_for` with a name that equals the stored one up to case
misses the exact branch — provided no entry occupies that exact key — and
still returns a standard name: that of the first case-insensitive name
match across all models. -/
theorem case_insensitive_fallback_resolves (db : AliasDb) (model name k : String)
    (e : AliasEntry) (hmem : (k, e) ∈ db)
    (hlow : pyLower e.relay_name = pyLower name)
    (hmiss : dbGet db model name = none) :
    find_standard_for db model name
      = ((find_by_relay_name db name).head?).map AliasEntry.standard_name
    ∧ (find_standard_for db model name).isSome = true := by
  have he : e ∈ find_by_relay_name db name := by
    unfold find_by_relay_name
    apply List.mem_filter.mpr
    exact ⟨List.mem_map.mpr ⟨(k, e), hmem, rfl⟩, by simp [hlow]⟩
  have hne : find_by_relay_name db name ≠ [] := List.ne_nil_of_mem he
  unfold find_standard_for
  rw [hmiss]
  cases hh : (find_by_relay_name db name).head? with
  | none => exact absurd (List.head?_eq_none_iff.mp hh) hne
  | some a => exact ⟨rfl, rfl⟩

/-- Witness for C10's amended theorem: the store holds only `M::ia`, and the
query `(M, IA)` misses the exact key yet resolves to `S1`. -/
theorem case_insensitive_fallback_resolves_witness :
    ((("M::ia", exEntryIa) ∈ ([("M::ia", exEntryIa)] : AliasDb))
     ∧ pyLower exEntryIa.relay_name = pyLower "IA"
     ∧ dbGet [("M::ia", exEntryIa)] "M" "IA" = none)
    ∧ (find_standard_for [("M::ia", exEntryIa)] "M" "IA"
        = ((find_by_relay_name [("M::ia", exEntryIa)] "IA").head?).map
            AliasEntry.standard_name
       ∧ (find_standard_for [("M::ia", exEntryIa)] "M" "IA").isSome = true) :=
  ⟨⟨by decide, by decide, by decide⟩,
   case_insensitive_fallback_resolves [("M::ia", exEntryIa)] "M" "IA" "M::ia"
     exEntryIa (by decide) (by decide) (by decide)⟩

end ValidadorComtrade
